import Mathlib

/-!
Shallow embedding of the raycasting engine of bevy_mod_raycast (src/lib.rs).

Scalars: the source computes with `f32`; this development models scalars as
exact rationals (ℚ).  The only non-rational operation the relevant code
performs is the square root inside `.length()`; it is modelled by `ratSqrt`,
which agrees with the mathematical square root whenever the argument is the
square of a rational (all concrete witnesses and counterexamples below use
geometry whose lengths are exact rationals), and, like the floating-point
function, returns some approximation elsewhere.  No theorem in this file
depends on the value of `ratSqrt` off the exact inputs it is evaluated at.

The repository modules `primitives.rs`, `raycast.rs` and `bounding.rs` are not
present under src/; the types and functions they export (`Ray3d`,
`Intersection`, `Triangle`, `ray_triangle_intersection`, `BoundingSphere`,
`BoundVol`) are modelled from the spec where indicated.  Everything else is a
direct translation of src/lib.rs.
-/

namespace BMR

/-- Bisection step for the natural floor square root: maintains
lo * lo <= n < hi * hi and narrows [lo, hi) until it has width one.  The
fuel argument only bounds the number of steps. -/
def sqrtBisect (n : ℕ) : ℕ → ℕ → ℕ → ℕ
  | 0, lo, _ => lo
  | fuel + 1, lo, hi =>
    if (lo + hi) / 2 = lo then lo
    else if (lo + hi) / 2 * ((lo + hi) / 2) ≤ n then sqrtBisect n fuel ((lo + hi) / 2) hi
    else sqrtBisect n fuel lo ((lo + hi) / 2)

/-- Floor square root on ℕ (proved correct in `natSqrt_le` and
`natSqrt_lt` below). -/
def natSqrt (n : ℕ) : ℕ := sqrtBisect n (n + 1) 0 (n + 1)

/-- Rational square root: exact on squares of rationals (`ratSqrt_sq`), an
approximation elsewhere.  Models the `f32` square root used by `.length()`,
which is likewise exact only on representable squares.  No theorem below
depends on its values off the exact inputs it is evaluated at. -/
def ratSqrt (q : ℚ) : ℚ := (natSqrt q.num.toNat : ℚ) / (natSqrt q.den : ℚ)

/-- Largest finite f32 value, `f32::MAX` = (2^24 - 1) * 2^104. -/
def f32Max : ℚ := (2 ^ 24 - 1) * 2 ^ 104

/-- Two-component vector (glam `Vec2`), components modelled as ℚ. -/
structure Vec2 where
  x : ℚ
  y : ℚ
  deriving DecidableEq, Repr

/-- Three-component vector (glam `Vec3`), components modelled as ℚ. -/
structure Vec3 where
  x : ℚ
  y : ℚ
  z : ℚ
  deriving DecidableEq, Repr

/-- Four-component vector (glam `Vec4`), components modelled as ℚ. -/
structure Vec4 where
  x : ℚ
  y : ℚ
  z : ℚ
  w : ℚ
  deriving DecidableEq, Repr

namespace Vec2

def add (a b : Vec2) : Vec2 := ⟨a.x + b.x, a.y + b.y⟩

def sub (a b : Vec2) : Vec2 := ⟨a.x - b.x, a.y - b.y⟩

def div (a b : Vec2) : Vec2 := ⟨a.x / b.x, a.y / b.y⟩

def smul (s : ℚ) (a : Vec2) : Vec2 := ⟨s * a.x, s * a.y⟩

/-- glam `Vec2::extend`: append a z component. -/
def extend (a : Vec2) (z : ℚ) : Vec3 := ⟨a.x, a.y, z⟩

def zero : Vec2 := ⟨0, 0⟩

end Vec2

namespace Vec3

def add (a b : Vec3) : Vec3 := ⟨a.x + b.x, a.y + b.y, a.z + b.z⟩

def sub (a b : Vec3) : Vec3 := ⟨a.x - b.x, a.y - b.y, a.z - b.z⟩

/-- Componentwise product (glam `Vec3 * Vec3`, used for scaling). -/
def mul (a b : Vec3) : Vec3 := ⟨a.x * b.x, a.y * b.y, a.z * b.z⟩

def smul (s : ℚ) (a : Vec3) : Vec3 := ⟨s * a.x, s * a.y, s * a.z⟩

def dot (a b : Vec3) : ℚ := a.x * b.x + a.y * b.y + a.z * b.z

def cross (a b : Vec3) : Vec3 :=
  ⟨a.y * b.z - a.z * b.y, a.z * b.x - a.x * b.z, a.x * b.y - a.y * b.x⟩

/-- glam `Vec3::length_squared`. -/
def lengthSq (a : Vec3) : ℚ := a.x * a.x + a.y * a.y + a.z * a.z

/-- glam `Vec3::length`, with the square root modelled by `ratSqrt`. -/
def length (a : Vec3) : ℚ := ratSqrt a.lengthSq

/-- glam `Vec3::max_element`. -/
def maxElement (a : Vec3) : ℚ := max a.x (max a.y a.z)

def zero : Vec3 := ⟨0, 0, 0⟩

end Vec3

/-- Column-major 4x4 matrix (glam `Mat4`): four column vectors. -/
structure Mat4 where
  xAxis : Vec4
  yAxis : Vec4
  zAxis : Vec4
  wAxis : Vec4
  deriving DecidableEq, Repr

namespace Vec4

def add (a b : Vec4) : Vec4 := ⟨a.x + b.x, a.y + b.y, a.z + b.z, a.w + b.w⟩

def smul (s : ℚ) (a : Vec4) : Vec4 := ⟨s * a.x, s * a.y, s * a.z, s * a.w⟩

def xyz (a : Vec4) : Vec3 := ⟨a.x, a.y, a.z⟩

end Vec4

namespace Mat4

/-- glam `Mat4::transform_point3`: multiply by (v, 1) assuming an affine
matrix, returning the xyz part (no perspective divide). -/
def transformPoint3 (m : Mat4) (v : Vec3) : Vec3 :=
  ((((m.xAxis.smul v.x).add (m.yAxis.smul v.y)).add (m.zAxis.smul v.z)).add m.wAxis).xyz

def mulVec4 (m : Mat4) (v : Vec4) : Vec4 :=
  (((m.xAxis.smul v.x).add (m.yAxis.smul v.y)).add (m.zAxis.smul v.z)).add (m.wAxis.smul v.w)

/-- Matrix product (glam `Mat4 * Mat4`). -/
def mul (a b : Mat4) : Mat4 :=
  ⟨a.mulVec4 b.xAxis, a.mulVec4 b.yAxis, a.mulVec4 b.zAxis, a.mulVec4 b.wAxis⟩

def identity : Mat4 :=
  ⟨⟨1, 0, 0, 0⟩, ⟨0, 1, 0, 0⟩, ⟨0, 0, 1, 0⟩, ⟨0, 0, 0, 1⟩⟩

/-- glam `Mat4::inverse` via the standard adjugate formula (entry a_rc is row
r, column c of the matrix; columns are the axes).  On a singular matrix the
divisions by the zero determinant yield 0 in ℚ (glam would produce
non-finite floats); no claim exercises that case. -/
def inverse (m : Mat4) : Mat4 :=
  let a00 := m.xAxis.x; let a10 := m.xAxis.y; let a20 := m.xAxis.z; let a30 := m.xAxis.w
  let a01 := m.yAxis.x; let a11 := m.yAxis.y; let a21 := m.yAxis.z; let a31 := m.yAxis.w
  let a02 := m.zAxis.x; let a12 := m.zAxis.y; let a22 := m.zAxis.z; let a32 := m.zAxis.w
  let a03 := m.wAxis.x; let a13 := m.wAxis.y; let a23 := m.wAxis.z; let a33 := m.wAxis.w
  let b00 := a00 * a11 - a01 * a10
  let b01 := a00 * a12 - a02 * a10
  let b02 := a00 * a13 - a03 * a10
  let b03 := a01 * a12 - a02 * a11
  let b04 := a01 * a13 - a03 * a11
  let b05 := a02 * a13 - a03 * a12
  let b06 := a20 * a31 - a21 * a30
  let b07 := a20 * a32 - a22 * a30
  let b08 := a20 * a33 - a23 * a30
  let b09 := a21 * a32 - a22 * a31
  let b10 := a21 * a33 - a23 * a31
  let b11 := a22 * a33 - a23 * a32
  let det := b00 * b11 - b01 * b10 + b02 * b09 + b03 * b08 - b04 * b07 + b05 * b06
  let inv := 1 / det
  ⟨⟨(a11 * b11 - a12 * b10 + a13 * b09) * inv,
    (-a10 * b11 + a12 * b08 - a13 * b07) * inv,
    (a10 * b10 - a11 * b08 + a13 * b06) * inv,
    (-a10 * b09 + a11 * b07 - a12 * b06) * inv⟩,
   ⟨(-a01 * b11 + a02 * b10 - a03 * b09) * inv,
    (a00 * b11 - a02 * b08 + a03 * b07) * inv,
    (-a00 * b10 + a01 * b08 - a03 * b06) * inv,
    (a00 * b09 - a01 * b07 + a02 * b06) * inv⟩,
   ⟨(a31 * b05 - a32 * b04 + a33 * b03) * inv,
    (-a30 * b05 + a32 * b02 - a33 * b01) * inv,
    (a30 * b04 - a31 * b02 + a33 * b00) * inv,
    (-a30 * b03 + a31 * b01 - a32 * b00) * inv⟩,
   ⟨(-a21 * b05 + a22 * b04 - a23 * b03) * inv,
    (a20 * b05 - a22 * b02 + a23 * b01) * inv,
    (-a20 * b04 + a21 * b02 - a23 * b00) * inv,
    (a20 * b03 - a21 * b01 + a22 * b00) * inv⟩⟩

end Mat4

/-- Rotation part of a transform, modelled as a 3x3 matrix given by its three
columns (bevy stores a quaternion; only the induced linear map matters here). -/
structure Mat3 where
  col0 : Vec3
  col1 : Vec3
  col2 : Vec3
  deriving DecidableEq, Repr

def Mat3.identity : Mat3 := ⟨⟨1, 0, 0⟩, ⟨0, 1, 0⟩, ⟨0, 0, 1⟩⟩

/-- bevy `GlobalTransform`: translation, rotation and (non-uniform) scale. -/
structure GlobalTransform where
  translation : Vec3
  rotation : Mat3
  scale : Vec3
  deriving DecidableEq, Repr

namespace GlobalTransform

/-- bevy `GlobalTransform::compute_matrix` =
`Mat4::from_scale_rotation_translation(scale, rotation, translation)`. -/
def computeMatrix (t : GlobalTransform) : Mat4 :=
  let c0 := (t.rotation.col0).smul t.scale.x
  let c1 := (t.rotation.col1).smul t.scale.y
  let c2 := (t.rotation.col2).smul t.scale.z
  ⟨⟨c0.x, c0.y, c0.z, 0⟩, ⟨c1.x, c1.y, c1.z, 0⟩, ⟨c2.x, c2.y, c2.z, 0⟩,
   ⟨t.translation.x, t.translation.y, t.translation.z, 1⟩⟩

def trivial : GlobalTransform := ⟨Vec3.zero, Mat3.identity, ⟨1, 1, 1⟩⟩

end GlobalTransform

/-- Modelled from the spec: `Ray3d` of the missing `primitives.rs` module —
an origin point plus a direction vector, stored as constructed
(§3: the direction need not be normalized). -/
structure Ray3d where
  origin : Vec3
  direction : Vec3
  deriving DecidableEq, Repr

/-- Modelled from the spec: `Ray3d::new` of the missing `primitives.rs`. -/
def Ray3d.new (origin direction : Vec3) : Ray3d := ⟨origin, direction⟩

/-- Modelled from the spec: `Triangle` of the missing `primitives.rs` module —
three world-space vertices (§3). -/
structure Triangle where
  v0 : Vec3
  v1 : Vec3
  v2 : Vec3
  deriving DecidableEq, Repr

/-- Modelled from the spec: `Intersection` of the missing `primitives.rs`
module — world point, distance from the ray origin, and the triangle hit
(§3). -/
structure Intersection where
  point : Vec3
  distance : ℚ
  triangle : Triangle
  deriving DecidableEq, Repr

/-- Modelled from the spec: `ray_triangle_intersection` of the missing
`raycast.rs` module, as the Moller-Trumbore algorithm named in §4.3: a
barycentric-valid intersection point and distance along the ray, handling
backface and frontface hits uniformly, rejecting rays parallel to the plane
(zero determinant in exact arithmetic) and hits behind the ray origin
(negative ray parameter).  Returns the world-space hit point. -/
def rayTriangleIntersection (ray : Ray3d) (tri : Triangle) : Option Vec3 :=
  let e1 := tri.v1.sub tri.v0
  let e2 := tri.v2.sub tri.v0
  let p := ray.direction.cross e2
  let det := e1.dot p
  if det = 0 then none
  else
    let inv := 1 / det
    let tvec := ray.origin.sub tri.v0
    let u := tvec.dot p * inv
    if u < 0 ∨ 1 < u then none
    else
      let q := tvec.cross e1
      let v := ray.direction.dot q * inv
      if v < 0 ∨ 1 < u + v then none
      else
        let t := e2.dot q * inv
        if t < 0 then none
        else some (ray.origin.add (ray.direction.smul t))

/-- Modelled from the spec: `BoundingSphere` of the missing `bounding.rs`
module — object-local origin and radius (§3). -/
structure BoundingSphere where
  origin : Vec3
  radius : ℚ
  deriving DecidableEq, Repr

/-- Modelled from the spec: `BoundVol` of the missing `bounding.rs` module —
an optionally not-yet-computed bounding sphere. -/
structure BoundVol where
  sphere : Option BoundingSphere
  deriving DecidableEq, Repr

/-! ## The triangle scan of `ray_mesh_intersection` (src/lib.rs lines 341-388) -/

/-- Index triples: `indices.chunks(3)` as used under the guard
`indices.len() % 3 == 0` (a trailing chunk shorter than 3 cannot occur
there). -/
def chunks3 : List ℕ → List (ℕ × ℕ × ℕ)
  | a :: b :: c :: rest => (a, b, c) :: chunks3 rest
  | _ => []

/-- World-space triangle of one index triple: each referenced local vertex
transformed by the mesh-to-world matrix.  An out-of-range index reads the
zero vector (in the source it is a slice-indexing panic; no claim involves
out-of-range indices). -/
def worldTriangle (meshToWorld : Mat4) (vertexPositions : List Vec3)
    (c : ℕ × ℕ × ℕ) : Triangle :=
  ⟨meshToWorld.transformPoint3 (vertexPositions.getD c.1 Vec3.zero),
   meshToWorld.transformPoint3 (vertexPositions.getD c.2.1 Vec3.zero),
   meshToWorld.transformPoint3 (vertexPositions.getD c.2.2 Vec3.zero)⟩

/-- Minimum over the three vertices of `(vert - origin).length().abs()` —
the fold in the source starts from `f32::INFINITY`, which exceeds every
finite value, so it equals the minimum of the three values. -/
def minVertexDistance (ray : Ray3d) (tri : Triangle) : ℚ :=
  min (min |(tri.v0.sub ray.origin).length| |(tri.v1.sub ray.origin).length|)
    |(tri.v2.sub ray.origin).length|

/-- Mutable state of the triangle scan: `min_pick_distance` (initially
`f32::MAX`) and the best intersection so far. -/
structure ScanState where
  minPickDistance : ℚ
  pickIntersection : Option Intersection
  deriving DecidableEq, Repr

/-- One iteration of the triangle loop of `ray_mesh_intersection`: build the
world triangle, skip it if its minimum vertex distance exceeds the best
distance so far, otherwise run the exact test and keep the hit when strictly
closer than the best so far. -/
def scanStep (meshToWorld : Mat4) (vertexPositions : List Vec3) (ray : Ray3d)
    (st : ScanState) (c : ℕ × ℕ × ℕ) : ScanState :=
  let tri := worldTriangle meshToWorld vertexPositions c
  if st.minPickDistance < minVertexDistance ray tri then st
  else
    match rayTriangleIntersection ray tri with
    | none => st
    | some pt =>
      let distance := |(pt.sub ray.origin).length|
      if distance < st.minPickDistance then ⟨distance, some ⟨pt, distance, tri⟩⟩
      else st

/-- src/lib.rs `ray_mesh_intersection`: scan all index triples when the index
list length is a multiple of 3, returning the tracked best intersection;
otherwise no triangle is tested and no intersection is returned. -/
def ray_mesh_intersection (meshToWorld : Mat4) (vertexPositions : List Vec3)
    (pickRay : Ray3d) (indices : List ℕ) : Option Intersection :=
  if indices.length % 3 = 0 then
    ((chunks3 indices).foldl (scanStep meshToWorld vertexPositions pickRay)
      ⟨f32Max, none⟩).pickIntersection
  else none

/-- Invariant of the triangle scan, relative to the chunks already seen. -/
def scanInv (mtw : Mat4) (verts : List Vec3) (ray : Ray3d)
    (seen : List (ℕ × ℕ × ℕ)) (st : ScanState) : Prop :=
  (st.pickIntersection = none → st.minPickDistance = f32Max ∧
    ∀ c ∈ seen, ∀ p, rayTriangleIntersection ray (worldTriangle mtw verts c) = some p →
      f32Max ≤ |(p.sub ray.origin).length| ∨
        f32Max < minVertexDistance ray (worldTriangle mtw verts c)) ∧
  (∀ i, st.pickIntersection = some i → st.minPickDistance = i.distance ∧
    (∃ c ∈ seen, rayTriangleIntersection ray (worldTriangle mtw verts c) = some i.point ∧
      i.distance = |(i.point.sub ray.origin).length| ∧
      i.triangle = worldTriangle mtw verts c) ∧
    ∀ c ∈ seen, ∀ p, rayTriangleIntersection ray (worldTriangle mtw verts c) = some p →
      i.distance ≤ |(p.sub ray.origin).length| ∨
        i.distance < minVertexDistance ray (worldTriangle mtw verts c))

/-! ## The culling pass (src/lib.rs lines 244-279) -/

/-- One row of the culling query: `(&Visible, Option<&BoundVol>,
&GlobalTransform, Entity)` for an entity with a `RayCastMesh<T>`.  Entities
are modelled as naturals. -/
structure CullEntry where
  isVisible : Bool
  boundVol : Option BoundVol
  transform : GlobalTransform
  entity : ℕ
  deriving DecidableEq, Repr

/-- The bounding-volume part of the culling predicate: the exact ray-sphere
test against the world-scaled sphere when one is cached, conservatively true
when the entry has no `BoundVol` or its sphere is not yet computed. -/
def boundHit (ray : Ray3d) (e : CullEntry) : Bool :=
  match e.boundVol with
  | some bv =>
    match bv.sphere with
    | some sphere =>
      let scaledRadius : ℚ := (101 / 100) * sphere.radius * e.transform.scale.maxElement
      let translatedOrigin := (sphere.origin.mul e.transform.scale).add e.transform.translation
      let det := (ray.direction.dot (ray.origin.sub translatedOrigin)) ^ 2
        - ((ray.origin.sub translatedOrigin).lengthSq - scaledRadius ^ 2)
      if det < 0 then false else true
    | none => true
  | none => true

/-- The complete per-entity culling predicate: visible and not ruled out by
the bounding test. -/
def cullTest (ray : Ray3d) (e : CullEntry) : Bool := e.isVisible && boundHit ray e

/-- Culling over one batch of entries: `map` to `Some(entity)`/`None`
followed by `filter_map`. -/
def cullBatch (ray : Ray3d) (l : List CullEntry) : List ℕ :=
  l.filterMap fun e => if cullTest ray e then some e.entity else none

/-- The culled short list: `culling_query.par_iter(32).map(..).filter_map(..)
.collect(&pool)` with the entries partitioned into batches; batch results are
concatenated in order. -/
def cullListPar (ray : Ray3d) (batches : List (List CullEntry)) : List ℕ :=
  (batches.map (cullBatch ray)).flatten

/-- The culled list as a function of the flat entry list (the partition into
batches of 32 is the scheduler's choice; `culledListIndependent` below shows
it does not matter). -/
def cullList (ray : Ray3d) (l : List CullEntry) : List ℕ := cullBatch ray l

/-- The ray-sphere hit predicate in the words of the spec (§4.2), for
comparison with the translated code: transform the cached local-space sphere
into world space (scale the radius by the transform's maximum scale
component, with the ×1.01 epsilon factor of §3; translate+scale the origin),
let d = dot(direction, origin_ray − sphere_center) and
disc = d² − (|origin_ray − sphere_center|² − radius²); the sphere is hit iff
disc ≥ 0. -/
def specSphereHit (ray : Ray3d) (sphere : BoundingSphere) (t : GlobalTransform) : Prop :=
  let worldRadius := (101 / 100 : ℚ) * sphere.radius * t.scale.maxElement
  let center := (sphere.origin.mul t.scale).add t.translation
  let d := ray.direction.dot (ray.origin.sub center)
  let disc := d ^ 2 - ((ray.origin.sub center).lengthSq - worldRadius ^ 2)
  0 ≤ disc

/-! ## The mesh intersection pass (src/lib.rs lines 281-329) -/

/-- bevy `PrimitiveTopology`, collapsed to the one constructor the code
distinguishes. -/
inductive PrimTopology where
  | triangleList
  | other
  deriving DecidableEq, Repr

/-- bevy `VertexAttributeValues` for the position attribute: the expected
`Float3` encoding or any other encoding. -/
inductive VertexAttr where
  | float3 (positions : List Vec3)
  | otherEncoding
  deriving DecidableEq, Repr

/-- bevy `Indices`: 16- or 32-bit index lists, both modelled as naturals. -/
inductive MeshIndices where
  | u16 (l : List ℕ)
  | u32 (l : List ℕ)
  deriving DecidableEq, Repr

/-- The `u16` branch maps each index to `u32`; the `u32` branch is passed
through. -/
def MeshIndices.toU32 : MeshIndices → List ℕ
  | .u16 l => l
  | .u32 l => l

/-- A mesh asset as the pass reads it: topology, optional position attribute,
optional index list. -/
structure MeshData where
  topology : PrimTopology
  positions : Option VertexAttr
  indices : Option MeshIndices
  deriving DecidableEq, Repr

/-- One row of the mesh query joined with the asset store:
`(&mut RayCastMesh<T>, &Handle<Mesh>, &GlobalTransform, Entity)`, where
`mesh` is `meshes.get(mesh_handle)` (`none` when the asset is missing, in
which case the source silently does nothing for the entity).  `targetIntersection`
is the `RayCastMesh::intersection` field before the update. -/
structure MeshEntry where
  targetIntersection : Option Intersection
  mesh : Option MeshData
  transform : GlobalTransform
  entity : ℕ
  deriving DecidableEq, Repr

/-- The fatal (panic) conditions of `update_raycast`, modelled as `Except`
errors that abort the whole update. -/
inductive RaycastError where
  | cursorNoCamera
  | cursorNoTransform
  | screenSpaceNoCamera
  | screenSpaceNoTransform
  | transformNoTransform
  | windowMissing
  | badTopology
  | missingPositions
  | badVertexEncoding
  | missingIndices
  deriving DecidableEq, Repr

/-- The loop over the mesh query (src/lib.rs lines 281-329): entities not in
the culled list are skipped (their stored intersection untouched); for the
rest, a missing mesh asset is silently skipped, a malformed mesh is a fatal
error, and otherwise the per-entity intersection is overwritten with the
fresh `ray_mesh_intersection` result, which is also pushed onto the source
aggregate list when it is a hit.  Returns the pushed hits in iteration order
together with the updated entries. -/
def meshPass (ray : Ray3d) (culled : List ℕ) :
    List MeshEntry → Except RaycastError (List (ℕ × Intersection) × List MeshEntry)
  | [] => .ok ([], [])
  | entry :: rest =>
    if culled.contains entry.entity then
      match entry.mesh with
      | none =>
        match meshPass ray culled rest with
        | .error e => .error e
        | .ok (hits, outs) => .ok (hits, entry :: outs)
      | some mesh =>
        if mesh.topology ≠ PrimTopology.triangleList then .error .badTopology
        else
          match mesh.positions with
          | none => .error .missingPositions
          | some .otherEncoding => .error .badVertexEncoding
          | some (.float3 vertexPositions) =>
            match mesh.indices with
            | none => .error .missingIndices
            | some indices =>
              let meshToWorld := entry.transform.computeMatrix
              let newIntersection :=
                ray_mesh_intersection meshToWorld vertexPositions ray indices.toU32
              match meshPass ray culled rest with
              | .error e => .error e
              | .ok (hits, outs) =>
                .ok ((match newIntersection with
                      | some i => (entry.entity, i) :: hits
                      | none => hits),
                  { entry with targetIntersection := newIntersection } :: outs)
    else
      match meshPass ray culled rest with
      | .error e => .error e
      | .ok (hits, outs) => .ok (hits, entry :: outs)

/-! ## Result aggregation (src/lib.rs lines 331-336) -/

/-- The comparator of the final sort: `partial_cmp` on distances with
`unwrap_or(Equal)` — in ℚ the order is total, so this is just `<=` on
distances; `sort_by` is a stable sort, modelled by `mergeSort`. -/
def sortIntersections (l : List (ℕ × Intersection)) : List (ℕ × Intersection) :=
  l.mergeSort fun a b => decide (a.2.distance ≤ b.2.distance)

/-! ## Ray generation and the per-source update (src/lib.rs lines 43-105 and 107-339) -/

/-- src/lib.rs `UpdateOn`. -/
inductive UpdateOn where
  | everyFrame (cached : Vec2)
  | onMouseEvent
  deriving DecidableEq, Repr

/-- src/lib.rs `RayCastMethod`.  The `EventReader` inside `CameraCursor` is
host-side cursor-event state; the latest unread event is passed to the update
as an explicit argument instead. -/
inductive RayCastMethod where
  | cameraCursor (updateOn : UpdateOn)
  | cameraScreenSpace (coordinatesNdc : Vec2)
  | transform
  deriving DecidableEq, Repr

/-- bevy `CursorMoved` event: originating window id and screen position. -/
structure CursorMoved where
  id : ℕ
  position : Vec2
  deriving DecidableEq, Repr

/-- bevy `Camera` as read by this code: target window id and projection
matrix. -/
structure Camera where
  window : ℕ
  projectionMatrix : Mat4
  deriving DecidableEq, Repr

/-- bevy `Window` as read by this code: width and height in pixels. -/
structure WindowDims where
  width : ℚ
  height : ℚ
  deriving DecidableEq, Repr

/-- bevy `Windows::get`. -/
def lookupWindow (windows : List (ℕ × WindowDims)) (id : ℕ) : Option WindowDims :=
  (windows.find? fun w => w.1 = id).map Prod.snd

/-- src/lib.rs `RayCastSource<T>`: cast method, last generated ray, current
sorted intersection list. -/
structure RayCastSource where
  castMethod : RayCastMethod
  ray : Option Ray3d
  intersections : List (ℕ × Intersection)
  deriving DecidableEq, Repr

/-- src/lib.rs `RayCastSource::intersect_list`. -/
def RayCastSource.intersectList (s : RayCastSource) : Option (List (ℕ × Intersection)) :=
  if s.intersections.isEmpty then none else some s.intersections

/-- src/lib.rs `RayCastSource::intersect_top`: `first().copied()` on a
non-empty list. -/
def RayCastSource.intersectTop (s : RayCastSource) : Option (ℕ × Intersection) :=
  if s.intersections.isEmpty then none else s.intersections.head?

/-- The ray-generation match of `update_raycast` (src/lib.rs lines 127-234)
for one source.  Returns `.ok none` for the `continue` of the on-event-only
method with no fresh cursor event (the source is left untouched), otherwise
the generated ray together with the possibly updated cast method (the
every-frame method caches the latest cursor position). -/
def generateRay (method : RayCastMethod) (transform : Option GlobalTransform)
    (camera : Option Camera) (cursorLatestAll : Option CursorMoved)
    (windows : List (ℕ × WindowDims)) :
    Except RaycastError (Option (Ray3d × RayCastMethod)) :=
  match method with
  | .cameraCursor updateOn =>
    match camera with
    | none => .error .cursorNoCamera
    | some cam =>
      let cursorLatest : Option CursorMoved :=
        match cursorLatestAll with
        | some cursorMoved =>
          if cursorMoved.id = cam.window then some cursorMoved else none
        | none => none
      let posAndMethod : Option (Vec2 × RayCastMethod) :=
        match updateOn with
        | .everyFrame cachedPos =>
          match cursorLatest with
          | some cursorMoved =>
            some (cursorMoved.position, .cameraCursor (.everyFrame cursorMoved.position))
          | none => some (cachedPos, .cameraCursor (.everyFrame cachedPos))
        | .onMouseEvent =>
          match cursorLatest with
          | some cursorMoved => some (cursorMoved.position, .cameraCursor .onMouseEvent)
          | none => none
      match posAndMethod with
      | none => .ok none
      | some (cursorPosScreen, newMethod) =>
        match lookupWindow windows cam.window with
        | none => .error .windowMissing
        | some window =>
          let screenSize : Vec2 := ⟨window.width, window.height⟩
          let cursorNdc : Vec2 :=
            (Vec2.smul 2 (cursorPosScreen.div screenSize)).sub ⟨1, 1⟩
          let cursorPosNdcNear : Vec3 := cursorNdc.extend (-1)
          let cursorPosNdcFar : Vec3 := cursorNdc.extend 1
          match transform with
          | none => .error .cursorNoTransform
          | some gt =>
            let cameraMatrix := gt.computeMatrix
            let ndcToWorld := cameraMatrix.mul cam.projectionMatrix.inverse
            let cursorPosNear := ndcToWorld.transformPoint3 cursorPosNdcNear
            let cursorPosFar := ndcToWorld.transformPoint3 cursorPosNdcFar
            let rayDirection := cursorPosFar.sub cursorPosNear
            .ok (some (Ray3d.new cursorPosNear rayDirection, newMethod))
  | .cameraScreenSpace coordinatesNdc =>
    match camera with
    | none => .error .screenSpaceNoCamera
    | some cam =>
      let cursorPosNdcNear : Vec3 := coordinatesNdc.extend (-1)
      let cursorPosNdcFar : Vec3 := coordinatesNdc.extend 1
      match transform with
      | none => .error .screenSpaceNoTransform
      | some gt =>
        let cameraMatrix := gt.computeMatrix
        let ndcToWorld := cameraMatrix.mul cam.projectionMatrix.inverse
        let cursorPosNear := ndcToWorld.transformPoint3 cursorPosNdcNear
        let cursorPosFar := ndcToWorld.transformPoint3 cursorPosNdcFar
        let rayDirection := cursorPosFar.sub cursorPosNear
        .ok (some (Ray3d.new cursorPosNear rayDirection, method))
  | .transform =>
    match transform with
    | none => .error .transformNoTransform
    | some gt =>
      let sourceTransform := gt.computeMatrix
      let pickPosition := sourceTransform.transformPoint3 ⟨0, 0, 1⟩
      let sourceOrigin := sourceTransform.wAxis.xyz
      let rayDirection := pickPosition.sub sourceOrigin
      .ok (some (Ray3d.new sourceOrigin rayDirection, method))

/-- Result of one source's update: the source fields after the update and the
updated per-entity targets. -/
structure UpdateResult where
  castMethod : RayCastMethod
  ray : Option Ray3d
  intersections : List (ℕ × Intersection)
  targets : List MeshEntry
  deriving DecidableEq, Repr

/-- The body of `update_raycast` after a ray is available (src/lib.rs lines
236-337): clear the source list, cull, run the mesh pass, sort. -/
def processRay (ray : Ray3d) (cullEntries : List CullEntry)
    (meshEntries : List MeshEntry) :
    Except RaycastError (List (ℕ × Intersection) × List MeshEntry) :=
  let culled := cullList ray cullEntries
  match meshPass ray culled meshEntries with
  | .error e => .error e
  | .ok (hits, outs) => .ok (sortIntersections hits, outs)

/-- src/lib.rs `update_raycast` for one source: generate the ray (`.ok none`
models `continue`, which leaves the source and every target untouched), then
cull, intersect and sort. -/
def update_raycast (source : RayCastSource) (transform : Option GlobalTransform)
    (camera : Option Camera) (cursorLatest : Option CursorMoved)
    (windows : List (ℕ × WindowDims)) (cullEntries : List CullEntry)
    (meshEntries : List MeshEntry) : Except RaycastError UpdateResult :=
  match generateRay source.castMethod transform camera cursorLatest windows with
  | .error e => .error e
  | .ok none => .ok ⟨source.castMethod, source.ray, source.intersections, meshEntries⟩
  | .ok (some (ray, newMethod)) =>
    match processRay ray cullEntries meshEntries with
    | .error e => .error e
    | .ok (sortedHits, outs) => .ok ⟨newMethod, some ray, sortedHits, outs⟩

/-! ## Concrete scenes used by witnesses and counterexamples

All lengths arising in these scenes are exact rationals (perfect squares under
`lengthSq`), so `ratSqrt` computes them exactly, as the floating-point square
root would up to representation error. -/

/-- A ray from the origin along +z. -/
def zRay : Ray3d := ⟨⟨0, 0, 0⟩, ⟨0, 0, 1⟩⟩

/-- Triangle A: crosses the z-axis in the plane z = 5; `zRay` hits it at
(0,0,5), distance 5. -/
def triA : Triangle := ⟨⟨-2, -1, 5⟩, ⟨2, -1, 5⟩, ⟨0, 2, 5⟩⟩

/-- Triangle B: a wide triangle crossing the z-axis in the plane z = 1;
`zRay` hits it at (0,0,1), distance 1, yet all three vertices are farther
than 5 from the origin (distances 9, 9 and 145/24). -/
def triB : Triangle := ⟨⟨4, 8, 1⟩, ⟨-4, 8, 1⟩, ⟨0, -143/24, 1⟩⟩

/-- Triangle C: crosses the z-axis in the plane z = 1; `zRay` hits it at
(0,0,1), distance 1 (all vertex distances small). -/
def triC : Triangle := ⟨⟨-2, -1, 1⟩, ⟨2, -1, 1⟩, ⟨0, 2, 1⟩⟩

/-- Vertex list holding triangle A (indices 0-2) then triangle B (indices
3-5). -/
def sceneVerts : List Vec3 :=
  [⟨-2, -1, 5⟩, ⟨2, -1, 5⟩, ⟨0, 2, 5⟩, ⟨4, 8, 1⟩, ⟨-4, 8, 1⟩, ⟨0, -143/24, 1⟩]

/-- Index list selecting triangle A then triangle B. -/
def sceneIdx : List ℕ := [0, 1, 2, 3, 4, 5]

/-- A mesh whose only triangle is A. -/
def meshA : MeshData :=
  ⟨.triangleList, some (.float3 [⟨-2, -1, 5⟩, ⟨2, -1, 5⟩, ⟨0, 2, 5⟩]), some (.u32 [0, 1, 2])⟩

/-- A mesh whose only triangle is C. -/
def meshC : MeshData :=
  ⟨.triangleList, some (.float3 [⟨-2, -1, 1⟩, ⟨2, -1, 1⟩, ⟨0, 2, 1⟩]), some (.u32 [0, 1, 2])⟩

/-- A well-formed mesh with no triangles. -/
def emptyMesh : MeshData := ⟨.triangleList, some (.float3 []), some (.u32 [])⟩

/-- A mesh with no index list (a fatal error if it reaches the pass). -/
def noIndexMesh : MeshData := ⟨.triangleList, some (.float3 []), none⟩

/-- A pre-existing intersection left over from an earlier update. -/
def staleIntersection : Intersection :=
  ⟨⟨7, 7, 7⟩, 42, ⟨⟨7, 7, 7⟩, ⟨8, 8, 8⟩, ⟨9, 9, 9⟩⟩⟩

/-! ## Square-root facts used to evaluate lengths in concrete scenes -/

theorem sqrtBisect_bounds : ∀ (fuel n lo hi : ℕ), lo * lo ≤ n → n < hi * hi →
    lo < hi → hi ≤ lo + 2 ^ fuel →
    sqrtBisect n fuel lo hi * sqrtBisect n fuel lo hi ≤ n ∧
      n < (sqrtBisect n fuel lo hi + 1) * (sqrtBisect n fuel lo hi + 1) := by
  intro fuel
  induction fuel with
  | zero =>
    intro n lo hi hlo hhi hlt hw
    have : hi = lo + 1 := by simpa using Nat.le_antisymm hw hlt
    subst this
    exact ⟨hlo, by simpa using hhi⟩
  | succ fuel ih =>
    intro n lo hi hlo hhi hlt hw
    have hpow : (2 : ℕ) ^ (fuel + 1) = 2 ^ fuel + 2 ^ fuel := by
      rw [pow_succ]; omega
    rw [sqrtBisect]
    by_cases hmid : (lo + hi) / 2 = lo
    · have : hi = lo + 1 := by omega
      subst this
      simp only [if_pos hmid]
      exact ⟨hlo, by simpa using hhi⟩
    · simp only [if_neg hmid]
      have hlom : lo < (lo + hi) / 2 := by omega
      have hmhi : (lo + hi) / 2 < hi := by omega
      by_cases hsq : (lo + hi) / 2 * ((lo + hi) / 2) ≤ n
      · simp only [if_pos hsq]
        exact ih n ((lo + hi) / 2) hi hsq hhi hmhi (by omega)
      · simp only [if_neg hsq]
        exact ih n lo ((lo + hi) / 2) hlo (by omega) hlom (by omega)

theorem natSqrt_bounds (n : ℕ) :
    natSqrt n * natSqrt n ≤ n ∧ n < (natSqrt n + 1) * (natSqrt n + 1) := by
  have h2 : n + 1 ≤ 0 + 2 ^ (n + 1) := by
    have := Nat.lt_two_pow n
    have h22 : (2 : ℕ) ^ n ≤ 2 ^ (n + 1) := Nat.pow_le_pow_right (by omega) (by omega)
    omega
  exact sqrtBisect_bounds (n + 1) n 0 (n + 1) (by omega) (by nlinarith) (by omega) h2

/-- The floor square root of a perfect square is exact. -/
theorem natSqrt_sq (a : ℕ) : natSqrt (a * a) = a := by
  obtain ⟨h1, h2⟩ := natSqrt_bounds (a * a)
  by_contra hne
  rcases Nat.lt_or_ge (natSqrt (a * a)) a with h | h
  · nlinarith
  · have : a < natSqrt (a * a) := by omega
    nlinarith

/-- ratSqrt is exact on squares of nonnegative rationals. -/
theorem ratSqrt_sq (r : ℚ) (h : 0 ≤ r) : ratSqrt (r * r) = r := by
  have hnum : (r * r).num = r.num * r.num := Rat.mul_self_num r
  have hden : (r * r).den = r.den * r.den := Rat.mul_self_den r
  have hn0 : 0 ≤ r.num := Rat.num_nonneg.mpr h
  have hnn : r.num = (r.num.toNat : ℤ) := (Int.toNat_of_nonneg hn0).symm
  rw [ratSqrt, hnum, hden]
  rw [show (r.num * r.num).toNat = r.num.toNat * r.num.toNat by
    rw [hnn]; rw [← Nat.cast_mul]; exact Int.toNat_natCast _]
  rw [natSqrt_sq, natSqrt_sq]
  rw [show ((r.num.toNat : ℚ)) = ((r.num : ℤ) : ℚ) by
    exact_mod_cast congrArg (fun z : ℤ => (z : ℚ)) (Int.toNat_of_nonneg hn0)]
  exact Rat.num_div_den r

/-- ratSqrt on a natural literal is the natural floor square root. -/
theorem ratSqrt_natCast (n : ℕ) : ratSqrt (n : ℚ) = natSqrt n := by
  rw [ratSqrt, Rat.num_natCast, Rat.den_natCast]
  rw [show (natSqrt 1) = 1 from rfl]
  simp [Int.toNat_natCast]

/-- Evaluation form of `ratSqrt_natCast` convenient for rewriting. -/
theorem ratSqrt_natCast_eval (n k : ℕ) (h : natSqrt n = k) : ratSqrt (n : ℚ) = (k : ℚ) := by
  rw [ratSqrt_natCast, h]

/-! ## Claim C5 -/

/-- Claim C5: `intersect_list` returns the full ordered sequence of
(entity, Intersection) pairs when the list is non-empty and none when it is
empty; `intersect_top` returns the first element of that sequence when
non-empty and none when empty. -/
theorem claim_C5 (s : RayCastSource) :
    (s.intersections = [] → s.intersectList = none ∧ s.intersectTop = none) ∧
    (∀ x xs, s.intersections = x :: xs →
      s.intersectList = some (x :: xs) ∧ s.intersectTop = some x) := by
  constructor
  · intro h
    simp [RayCastSource.intersectList, RayCastSource.intersectTop, h]
  · intro x xs h
    simp [RayCastSource.intersectList, RayCastSource.intersectTop, h]

/-- Witness for C5 at concrete sources with an empty and a one-element
list. -/
theorem claim_C5_witness :
    (RayCastSource.mk .transform none []).intersectList = none ∧
    (RayCastSource.mk .transform none
      [(3, staleIntersection)]).intersectTop = some (3, staleIntersection) :=
  ⟨((claim_C5 (RayCastSource.mk .transform none [])).1 rfl).1,
   ((claim_C5 (RayCastSource.mk .transform none [(3, staleIntersection)])).2
      (3, staleIntersection) [] rfl).2⟩

/-! ## Claim C6 -/

/-- Claim C6: during a triangle scan, a triangle whose minimum vertex
distance from the ray origin strictly exceeds the best distance found so far
is skipped by the prefilter: the exact ray-triangle test is not consulted and
the scan state is returned unchanged. -/
theorem claim_C6 (meshToWorld : Mat4) (verts : List Vec3) (ray : Ray3d)
    (st : ScanState) (c : ℕ × ℕ × ℕ)
    (h : st.minPickDistance < minVertexDistance ray (worldTriangle meshToWorld verts c)) :
    scanStep meshToWorld verts ray st c = st := by
  simp only [scanStep]
  rw [if_pos h]

/-- Witness for C6: with best distance 1, the index triple of triangle B
(all vertices farther than 1) is skipped. -/
theorem claim_C6_witness :
    scanStep Mat4.identity sceneVerts zRay ⟨1, none⟩ (3, 4, 5) = ⟨1, none⟩ := by
  have e81 : ratSqrt 81 = 9 := by exact_mod_cast ratSqrt_natCast_eval 81 9 (by decide)
  have eB : ratSqrt (21025 / 576) = 145 / 24 := by
    rw [show (21025 / 576 : ℚ) = (145 / 24) * (145 / 24) by norm_num]
    exact ratSqrt_sq (145 / 24) (by norm_num)
  have eAbsB : |(145 / 24 : ℚ)| = 145 / 24 := abs_of_nonneg (by norm_num)
  apply claim_C6
  norm_num [minVertexDistance, worldTriangle, sceneVerts, zRay, Mat4.identity,
    Mat4.transformPoint3, Vec4.smul, Vec4.add, Vec4.xyz, Vec3.sub, Vec3.length,
    Vec3.lengthSq, Vec3.zero, e81, eB, eAbsB]

/-! ## Claim C10 -/

/-- Claim C10: when the index list length is not a multiple of 3,
`ray_mesh_intersection` silently returns none without testing any triangle,
and in the mesh pass such a mesh sets its per-object result to none and
contributes nothing to the aggregate list, raising no error. -/
theorem claim_C10 (meshToWorld : Mat4) (verts : List Vec3) (ray : Ray3d)
    (idx : List ℕ) (h : idx.length % 3 ≠ 0) :
    ray_mesh_intersection meshToWorld verts ray idx = none ∧
    ∀ (culled : List ℕ) (prior : Option Intersection) (t : GlobalTransform)
      (e : ℕ) (mi : MeshIndices), mi.toU32 = idx → culled.contains e = true →
      meshPass ray culled [⟨prior, some ⟨.triangleList, some (.float3 verts), some mi⟩, t, e⟩] =
        .ok ([], [⟨none, some ⟨.triangleList, some (.float3 verts), some mi⟩, t, e⟩]) := by
  have hnone : ∀ m : Mat4, ray_mesh_intersection m verts ray idx = none := by
    intro m
    rw [ray_mesh_intersection, if_neg h]
  refine ⟨hnone meshToWorld, ?_⟩
  intro culled prior t e mi hmi hc
  simp only [meshPass, hc, if_true, hmi, hnone]
  simp

/-- Witness for C10 at a one-index mesh. -/
theorem claim_C10_witness :
    ray_mesh_intersection Mat4.identity [] zRay [0] = none ∧
    meshPass zRay [5]
      [⟨some staleIntersection, some ⟨.triangleList, some (.float3 []), some (.u32 [0])⟩,
        GlobalTransform.trivial, 5⟩] =
      .ok ([], [⟨none, some ⟨.triangleList, some (.float3 []), some (.u32 [0])⟩,
        GlobalTransform.trivial, 5⟩]) := by
  have h := claim_C10 Mat4.identity [] zRay [0] (by decide)
  exact ⟨h.1, h.2 [5] (some staleIntersection) GlobalTransform.trivial 5 (.u32 [0]) rfl (by decide)⟩

/-! ## Claim C3 -/

/-- Claim C3: the culling pass retains exactly the visible entries whose
bounding test passes (which is conservatively true without a computed
sphere); in particular every visible entry without a cached bounding sphere
is retained. -/
theorem claim_C3 (ray : Ray3d) (entries : List CullEntry) :
    (∀ e : ℕ, e ∈ cullList ray entries ↔
      ∃ entry ∈ entries, entry.entity = e ∧ entry.isVisible = true ∧
        boundHit ray entry = true) ∧
    (∀ entry ∈ entries, (entry.boundVol = none ∨ entry.boundVol = some ⟨none⟩) →
      entry.isVisible = true → entry.entity ∈ cullList ray entries) := by
  have hmem : ∀ e : ℕ, e ∈ cullList ray entries ↔
      ∃ entry ∈ entries, entry.entity = e ∧ entry.isVisible = true ∧
        boundHit ray entry = true := by
    intro e
    simp only [cullList, cullBatch, List.mem_filterMap]
    constructor
    · rintro ⟨a, ha, hsome⟩
      by_cases hct : cullTest ray a = true
      · rw [if_pos hct] at hsome
        have hand : a.isVisible = true ∧ boundHit ray a = true := by
          simpa [cullTest] using hct
        exact ⟨a, ha, Option.some.inj hsome, hand.1, hand.2⟩
      · rw [if_neg hct] at hsome
        cases hsome
    · rintro ⟨a, ha, rfl, hv, hb⟩
      refine ⟨a, ha, ?_⟩
      rw [if_pos (show cullTest ray a = true by simp [cullTest, hv, hb])]
  refine ⟨hmem, ?_⟩
  intro entry hin hbv hvis
  apply (hmem entry.entity).mpr
  refine ⟨entry, hin, rfl, hvis, ?_⟩
  rcases hbv with h | h <;> simp [boundHit, h]

/-- Witness for C3: a visible entry with no bounding volume is retained. -/
theorem claim_C3_witness :
    (0 : ℕ) ∈ cullList zRay [⟨true, none, GlobalTransform.trivial, 0⟩] :=
  (claim_C3 zRay [⟨true, none, GlobalTransform.trivial, 0⟩]).2
    ⟨true, none, GlobalTransform.trivial, 0⟩ (by simp) (Or.inl rfl) rfl

/-! ## Claim C4 -/

/-- Claim C4: for an entry with a cached bounding sphere, the culling test
passes iff the entry is visible and the spec formula holds: world radius
scaled by the maximum scale component with the ×1.01 factor, origin scaled
and translated, and disc = d² − (|oc|² − r²) ≥ 0 with
d = dot(direction, oc). -/
theorem claim_C4 (ray : Ray3d) (entry : CullEntry) (sphere : BoundingSphere)
    (h : entry.boundVol = some ⟨some sphere⟩) :
    cullTest ray entry = true ↔
      entry.isVisible = true ∧ specSphereHit ray sphere entry.transform := by
  have hiff : ∀ d : ℚ, ((if d < 0 then false else true) = true) ↔ 0 ≤ d := by
    intro d
    by_cases hd : d < 0
    · simp [hd]
    · simp [hd]
      linarith
  simp only [cullTest, boundHit, h, Bool.and_eq_true, specSphereHit]
  rw [hiff]

/-- Witness for C4: a unit sphere at the origin is hit by a ray from its
center. -/
theorem claim_C4_witness :
    cullTest zRay ⟨true, some ⟨some ⟨⟨0, 0, 0⟩, 1⟩⟩, GlobalTransform.trivial, 7⟩ = true := by
  apply (claim_C4 zRay ⟨true, some ⟨some ⟨⟨0, 0, 0⟩, 1⟩⟩, GlobalTransform.trivial, 7⟩
    ⟨⟨0, 0, 0⟩, 1⟩ rfl).mpr
  refine ⟨rfl, ?_⟩
  norm_num [specSphereHit, GlobalTransform.trivial, Vec3.maxElement, Vec3.mul,
    Vec3.add, Vec3.sub, Vec3.dot, Vec3.lengthSq, Vec3.zero, zRay]

/-! ## Claim C2 -/

/-- Sortedness of the aggregate sort (used by claim C2). -/
theorem sortIntersections_sorted (l : List (ℕ × Intersection)) :
    (sortIntersections l).Sorted fun a b => a.2.distance ≤ b.2.distance := by
  have h := @List.sorted_mergeSort (ℕ × Intersection)
    (fun a b => decide (a.2.distance ≤ b.2.distance))
    (fun a b c h1 h2 => by
      rw [decide_eq_true_eq] at h1 h2 ⊢
      exact le_trans h1 h2)
    (fun a b => by
      rw [Bool.or_eq_true, decide_eq_true_eq, decide_eq_true_eq]
      exact le_total _ _)
    l
  exact h.imp fun hab => of_decide_eq_true hab

theorem sortIntersections_perm (l : List (ℕ × Intersection)) :
    (sortIntersections l).Perm l :=
  List.mergeSort_perm l _

theorem sort_unique (l₁ l₂ : List (ℕ × Intersection)) (hp : l₁.Perm l₂)
    (hd : l₁.Pairwise fun a b => a.2.distance ≠ b.2.distance) :
    sortIntersections l₁ = sortIntersections l₂ := by
  have s₁ := sortIntersections_sorted l₁
  have s₂ := sortIntersections_sorted l₂
  have p₁ : (sortIntersections l₁).Perm (sortIntersections l₂) :=
    ((sortIntersections_perm l₁).trans hp).trans (sortIntersections_perm l₂).symm
  have hsymm : ∀ {x y : ℕ × Intersection},
      x.2.distance ≠ y.2.distance → y.2.distance ≠ x.2.distance := fun h => h.symm
  have hd₁ : (sortIntersections l₁).Pairwise fun a b => a.2.distance ≠ b.2.distance :=
    ((sortIntersections_perm l₁).pairwise_iff hsymm).mpr hd
  have hd₂ : (sortIntersections l₂).Pairwise fun a b => a.2.distance ≠ b.2.distance :=
    ((sortIntersections_perm l₂).pairwise_iff hsymm).mpr
      ((hp.pairwise_iff hsymm).mp hd)
  have hlt₁ : (sortIntersections l₁).Pairwise fun a b => a.2.distance < b.2.distance :=
    (s₁.and hd₁).imp fun hab => lt_of_le_of_ne hab.1 hab.2
  have hlt₂ : (sortIntersections l₂).Pairwise fun a b => a.2.distance < b.2.distance :=
    (s₂.and hd₂).imp fun hab => lt_of_le_of_ne hab.1 hab.2
  haveI : IsAntisymm (ℕ × Intersection) (fun a b => a.2.distance < b.2.distance) :=
    ⟨fun a b h1 h2 => absurd h2 (lt_asymm h1)⟩
  exact List.eq_of_perm_of_sorted p₁ hlt₁ hlt₂

/-- Claim C2: after an update in which the source generated a ray, the
source's intersection list is sorted by ascending distance; and the sort is
insertion-order independent for pairwise-distinct distances: any two
permutations of the same collected hits sort to the same ascending list, so
N objects contributing one hit each at distinct distances aggregate to the
ascending-distance order regardless of insertion order. -/
theorem claim_C2 :
    (∀ (src : RayCastSource) (tr : Option GlobalTransform) (cam : Option Camera)
      (cur : Option CursorMoved) (wins : List (ℕ × WindowDims))
      (cull : List CullEntry) (mesh : List MeshEntry) (r : UpdateResult)
      (ray : Ray3d) (nm : RayCastMethod),
      update_raycast src tr cam cur wins cull mesh = .ok r →
      generateRay src.castMethod tr cam cur wins = .ok (some (ray, nm)) →
      r.intersections.Sorted fun a b => a.2.distance ≤ b.2.distance) ∧
    (∀ l₁ l₂ : List (ℕ × Intersection), l₁.Perm l₂ →
      (l₁.Pairwise fun a b => a.2.distance ≠ b.2.distance) →
      sortIntersections l₁ = sortIntersections l₂) := by
  constructor
  · intro src tr cam cur wins cull mesh r ray nm hok hgen
    rw [update_raycast, hgen] at hok
    simp only [processRay] at hok
    cases hmp : meshPass ray (cullList ray cull) mesh with
    | error e =>
      rw [hmp] at hok
      cases hok
    | ok pr =>
      rcases pr with ⟨hits, outs⟩
      rw [hmp] at hok
      cases hok
      exact sortIntersections_sorted hits
  · exact sort_unique


/-- Witness for C2: a two-object scene hit at distances 5 and 1 yields a
sorted result list, and the two insertion orders sort identically. -/
theorem claim_C2_witness :
    ∃ r, update_raycast ⟨.transform, none, []⟩ (some GlobalTransform.trivial) none none []
        [⟨true, none, GlobalTransform.trivial, 1⟩, ⟨true, none, GlobalTransform.trivial, 2⟩]
        [⟨none, some meshA, GlobalTransform.trivial, 1⟩,
         ⟨none, some meshC, GlobalTransform.trivial, 2⟩] = .ok r ∧
      (r.intersections.Sorted fun a b => a.2.distance ≤ b.2.distance) ∧
      sortIntersections [(1, ⟨⟨0, 0, 5⟩, 5, triA⟩), (2, ⟨⟨0, 0, 1⟩, 1, triC⟩)] =
        sortIntersections [(2, ⟨⟨0, 0, 1⟩, 1, triC⟩), (1, ⟨⟨0, 0, 5⟩, 5, triA⟩)] := by
  have e1 : ratSqrt 1 = 1 := by exact_mod_cast ratSqrt_natCast_eval 1 1 (by decide)
  have e30 : ratSqrt 30 = 5 := by exact_mod_cast ratSqrt_natCast_eval 30 5 (by decide)
  have e29 : ratSqrt 29 = 5 := by exact_mod_cast ratSqrt_natCast_eval 29 5 (by decide)
  have e25 : ratSqrt 25 = 5 := by exact_mod_cast ratSqrt_natCast_eval 25 5 (by decide)
  have e6 : ratSqrt 6 = 2 := by exact_mod_cast ratSqrt_natCast_eval 6 2 (by decide)
  have e5 : ratSqrt 5 = 2 := by exact_mod_cast ratSqrt_natCast_eval 5 2 (by decide)
  have hgen : generateRay RayCastMethod.transform (some GlobalTransform.trivial) none none [] =
      .ok (some (⟨⟨0, 0, 0⟩, ⟨0, 0, 1⟩⟩, RayCastMethod.transform)) := by
    norm_num [generateRay, GlobalTransform.trivial, GlobalTransform.computeMatrix,
      Mat3.identity, Vec3.smul, Mat4.transformPoint3, Vec4.smul, Vec4.add, Vec4.xyz,
      Vec3.sub, Ray3d.new, Vec3.zero]
  have hcull : cullList ⟨⟨0, 0, 0⟩, ⟨0, 0, 1⟩⟩
      [⟨true, none, GlobalTransform.trivial, 1⟩, ⟨true, none, GlobalTransform.trivial, 2⟩] =
      [1, 2] := by
    simp [cullList, cullBatch, cullTest, boundHit]
  have hmA : ray_mesh_intersection GlobalTransform.trivial.computeMatrix
      [⟨-2, -1, 5⟩, ⟨2, -1, 5⟩, ⟨0, 2, 5⟩] ⟨⟨0, 0, 0⟩, ⟨0, 0, 1⟩⟩ [0, 1, 2] =
      some ⟨⟨0, 0, 5⟩, 5, triA⟩ := by
    norm_num [ray_mesh_intersection, chunks3, scanStep, worldTriangle, minVertexDistance,
      rayTriangleIntersection, Vec3.sub, Vec3.cross, Vec3.dot, Vec3.add, Vec3.smul,
      Vec3.length, Vec3.lengthSq, Vec3.zero, GlobalTransform.trivial,
      GlobalTransform.computeMatrix, Mat3.identity, Mat4.transformPoint3, Vec4.smul,
      Vec4.add, Vec4.xyz, f32Max, triA, e30, e29, e25]
  have hmC : ray_mesh_intersection GlobalTransform.trivial.computeMatrix
      [⟨-2, -1, 1⟩, ⟨2, -1, 1⟩, ⟨0, 2, 1⟩] ⟨⟨0, 0, 0⟩, ⟨0, 0, 1⟩⟩ [0, 1, 2] =
      some ⟨⟨0, 0, 1⟩, 1, triC⟩ := by
    norm_num [ray_mesh_intersection, chunks3, scanStep, worldTriangle, minVertexDistance,
      rayTriangleIntersection, Vec3.sub, Vec3.cross, Vec3.dot, Vec3.add, Vec3.smul,
      Vec3.length, Vec3.lengthSq, Vec3.zero, GlobalTransform.trivial,
      GlobalTransform.computeMatrix, Mat3.identity, Mat4.transformPoint3, Vec4.smul,
      Vec4.add, Vec4.xyz, f32Max, triC, e6, e5, e1]
  have hmp : meshPass ⟨⟨0, 0, 0⟩, ⟨0, 0, 1⟩⟩ [1, 2]
      [⟨none, some meshA, GlobalTransform.trivial, 1⟩,
       ⟨none, some meshC, GlobalTransform.trivial, 2⟩] =
      .ok ([(1, ⟨⟨0, 0, 5⟩, 5, triA⟩), (2, ⟨⟨0, 0, 1⟩, 1, triC⟩)],
        [⟨some ⟨⟨0, 0, 5⟩, 5, triA⟩, some meshA, GlobalTransform.trivial, 1⟩,
         ⟨some ⟨⟨0, 0, 1⟩, 1, triC⟩, some meshC, GlobalTransform.trivial, 2⟩]) := by
    simp [meshPass, meshA, meshC, MeshIndices.toU32, hmA, hmC]
  have hup : update_raycast ⟨.transform, none, []⟩ (some GlobalTransform.trivial) none none []
      [⟨true, none, GlobalTransform.trivial, 1⟩, ⟨true, none, GlobalTransform.trivial, 2⟩]
      [⟨none, some meshA, GlobalTransform.trivial, 1⟩,
       ⟨none, some meshC, GlobalTransform.trivial, 2⟩] =
      .ok ⟨.transform, some ⟨⟨0, 0, 0⟩, ⟨0, 0, 1⟩⟩,
        sortIntersections [(1, ⟨⟨0, 0, 5⟩, 5, triA⟩), (2, ⟨⟨0, 0, 1⟩, 1, triC⟩)],
        [⟨some ⟨⟨0, 0, 5⟩, 5, triA⟩, some meshA, GlobalTransform.trivial, 1⟩,
         ⟨some ⟨⟨0, 0, 1⟩, 1, triC⟩, some meshC, GlobalTransform.trivial, 2⟩]⟩ := by
    rw [update_raycast]
    rw [show (RayCastSource.mk .transform none []).castMethod = RayCastMethod.transform from rfl]
    rw [hgen]
    simp only [processRay]
    rw [hcull, hmp]
  refine ⟨_, hup, ?_, ?_⟩
  · exact claim_C2.1 ⟨.transform, none, []⟩ (some GlobalTransform.trivial) none none [] _ _ _
      ⟨⟨0, 0, 0⟩, ⟨0, 0, 1⟩⟩ RayCastMethod.transform hup hgen
  · exact claim_C2.2 _ _
      (List.Perm.swap ((2 : ℕ), (⟨⟨0, 0, 1⟩, 1, triC⟩ : Intersection))
        ((1 : ℕ), (⟨⟨0, 0, 5⟩, 5, triA⟩ : Intersection)) [])
      (by norm_num)

/-! ## Claim C9 -/

/-- Claim C9: the update is deterministic and independent of the culling
partition: the parallel culled list equals the sequential one for every
partition of the entries into batches, any two partitions agree, and the mesh
pass depends on the culled list only through membership, so any two culled
lists with the same members produce identical passes (and hence identical
sorted result lists). -/
theorem claim_C9 (ray : Ray3d) (entries : List CullEntry)
    (batches1 batches2 : List (List CullEntry)) (meshEntries : List MeshEntry)
    (h1 : batches1.flatten = entries) (h2 : batches2.flatten = entries) :
    cullListPar ray batches1 = cullList ray entries ∧
    cullListPar ray batches1 = cullListPar ray batches2 ∧
    (∀ culled1 culled2 : List ℕ, (∀ e, e ∈ culled1 ↔ e ∈ culled2) →
      meshPass ray culled1 meshEntries = meshPass ray culled2 meshEntries) := by
  have hpar : ∀ bs : List (List CullEntry), cullListPar ray bs = cullList ray bs.flatten := by
    intro bs
    show (bs.map (cullBatch ray)).flatten = cullBatch ray bs.flatten
    rw [show cullBatch ray =
      List.filterMap (fun e => if cullTest ray e then some e.entity else none) from rfl]
    rw [List.filterMap_flatten]
  have hp1 : cullListPar ray batches1 = cullList ray entries := by rw [hpar, h1]
  have hp2 : cullListPar ray batches2 = cullList ray entries := by rw [hpar, h2]
  refine ⟨hp1, hp1.trans hp2.symm, ?_⟩
  intro c1 c2 hmem
  induction meshEntries with
  | nil => rfl
  | cons e rest ih =>
    have hc : c1.contains e.entity = c2.contains e.entity := by
      rw [show c1.contains e.entity = List.elem e.entity c1 from rfl,
        show c2.contains e.entity = List.elem e.entity c2 from rfl,
        List.elem_eq_mem, List.elem_eq_mem]
      exact decide_eq_decide.mpr (hmem e.entity)
    simp only [meshPass, hc, ih]


/-- Witness for C9: two partitions of a two-entry scene agree, and the mesh
pass is unchanged under reordering the culled list. -/
theorem claim_C9_witness :
    cullListPar zRay [[⟨true, none, GlobalTransform.trivial, 0⟩],
        [⟨true, none, GlobalTransform.trivial, 1⟩]] =
      cullListPar zRay [[⟨true, none, GlobalTransform.trivial, 0⟩,
        ⟨true, none, GlobalTransform.trivial, 1⟩]] ∧
    meshPass zRay [0, 1] [⟨none, some emptyMesh, GlobalTransform.trivial, 0⟩] =
      meshPass zRay [1, 0] [⟨none, some emptyMesh, GlobalTransform.trivial, 0⟩] := by
  have h := claim_C9 zRay
    [⟨true, none, GlobalTransform.trivial, 0⟩, ⟨true, none, GlobalTransform.trivial, 1⟩]
    [[⟨true, none, GlobalTransform.trivial, 0⟩], [⟨true, none, GlobalTransform.trivial, 1⟩]]
    [[⟨true, none, GlobalTransform.trivial, 0⟩, ⟨true, none, GlobalTransform.trivial, 1⟩]]
    [⟨none, some emptyMesh, GlobalTransform.trivial, 0⟩] rfl rfl
  refine ⟨h.2.1, h.2.2 [0, 1] [1, 0] ?_⟩
  intro e
  simp [List.mem_cons]
  tauto

/-! ## Claim C8 -/

/-- Claim C8, amended: in an update where the source generated a ray, the
stored per-object intersection is overwritten with the object's own fresh
result for every object that survives culling and whose mesh asset resolves
(and is well-formed); an object skipped by culling, or whose mesh asset is
missing, retains its previous stored intersection unchanged. -/
theorem claim_C8_amended (ray : Ray3d) (culled : List ℕ) :
    ∀ (entries : List MeshEntry) (hits : List (ℕ × Intersection)) (outs : List MeshEntry),
      meshPass ray culled entries = .ok (hits, outs) →
      outs.length = entries.length ∧
      ∀ p ∈ entries.zip outs,
        (culled.contains p.1.entity = false → p.2 = p.1) ∧
        (p.1.mesh = none → p.2 = p.1) ∧
        (culled.contains p.1.entity = true →
          ∀ md verts mi, p.1.mesh = some md → md.topology = .triangleList →
            md.positions = some (.float3 verts) → md.indices = some mi →
            p.2 = { p.1 with targetIntersection :=
              ray_mesh_intersection p.1.transform.computeMatrix verts ray mi.toU32 }) := by
  intro entries
  induction entries with
  | nil =>
    intro hits outs h
    simp only [meshPass, Except.ok.injEq, Prod.mk.injEq] at h
    obtain ⟨h1, h2⟩ := h
    subst h2
    simp
  | cons e rest ih =>
    intro hits outs h
    by_cases hc : culled.contains e.entity = true
    · cases hm : e.mesh with
      | none =>
        cases hrec : meshPass ray culled rest with
        | error er =>
          simp only [meshPass, hc, hm, hrec, if_true] at h
          exact Except.noConfusion h
        | ok pr =>
          rcases pr with ⟨hits0, outs0⟩
          simp only [meshPass, hc, hm, hrec, if_true, Except.ok.injEq, Prod.mk.injEq] at h
          obtain ⟨h1, h2⟩ := h
          subst h1
          subst h2
          obtain ⟨hl, hz⟩ := ih hits0 outs0 hrec
          refine ⟨by simp [hl], ?_⟩
          intro p hp
          rcases List.mem_cons.mp (by simpa [List.zip] using hp) with hhead | htail
          · subst hhead
            refine ⟨fun _ => rfl, fun _ => rfl, fun _ md verts mi hmd _ _ _ => ?_⟩
            rw [hm] at hmd
            exact Option.noConfusion hmd
          · exact hz p htail
      | some md =>
        by_cases ht : md.topology = PrimTopology.triangleList
        · cases hpos : md.positions with
          | none =>
            simp only [meshPass, hc, hm, if_true] at h
            rw [if_neg (not_not_intro ht)] at h
            rw [hpos] at h
            exact Except.noConfusion h
          | some va =>
            cases va with
            | otherEncoding =>
              simp only [meshPass, hc, hm, if_true] at h
              rw [if_neg (not_not_intro ht)] at h
              rw [hpos] at h
              exact Except.noConfusion h
            | float3 verts =>
              cases hi : md.indices with
              | none =>
                simp only [meshPass, hc, hm, if_true] at h
                rw [if_neg (not_not_intro ht)] at h
                rw [hpos, hi] at h
                exact Except.noConfusion h
              | some mi =>
                cases hrec : meshPass ray culled rest with
                | error er =>
                  simp only [meshPass, hc, hm, if_true] at h
                  rw [if_neg (not_not_intro ht)] at h
                  rw [hpos, hi, hrec] at h
                  exact Except.noConfusion h
                | ok pr =>
                  rcases pr with ⟨hits0, outs0⟩
                  simp only [meshPass, hc, hm, if_true] at h
                  rw [if_neg (not_not_intro ht)] at h
                  rw [hpos, hi, hrec] at h
                  simp only [Except.ok.injEq, Prod.mk.injEq] at h
                  obtain ⟨h1, h2⟩ := h
                  subst h1
                  subst h2
                  obtain ⟨hl, hz⟩ := ih hits0 outs0 hrec
                  refine ⟨by simp [hl], ?_⟩
                  intro p hp
                  rcases List.mem_cons.mp (by simpa [List.zip] using hp) with hhead | htail
                  · subst hhead
                    refine ⟨?_, ?_, ?_⟩
                    · intro h0
                      rw [hc] at h0
                      exact Bool.noConfusion h0
                    · intro h0
                      rw [hm] at h0
                      exact Option.noConfusion h0
                    · intro _ md2 verts2 mi2 hmd2 ht2 hp2 hi2
                      rw [hm] at hmd2
                      obtain rfl := Option.some.inj hmd2
                      rw [hpos] at hp2
                      obtain rfl : verts = verts2 := by
                        cases Option.some.inj hp2
                        rfl
                      rw [hi] at hi2
                      obtain rfl := Option.some.inj hi2
                      simp [hm]
                  · exact hz p htail
        · simp only [meshPass, hc, hm, if_true] at h
          rw [if_pos ht] at h
          exact Except.noConfusion h
    · have hcf : culled.contains e.entity = false := by
        cases hcc : culled.contains e.entity
        · rfl
        · exact absurd hcc hc
      cases hrec : meshPass ray culled rest with
      | error er =>
        simp only [meshPass, hcf, Bool.false_eq_true, if_false, hrec] at h
        exact Except.noConfusion h
      | ok pr =>
        rcases pr with ⟨hits0, outs0⟩
        simp only [meshPass, hcf, Bool.false_eq_true, if_false, hrec, Except.ok.injEq,
          Prod.mk.injEq] at h
        obtain ⟨h1, h2⟩ := h
        subst h1
        subst h2
        obtain ⟨hl, hz⟩ := ih hits0 outs0 hrec
        refine ⟨by simp [hl], ?_⟩
        intro p hp
        rcases List.mem_cons.mp (by simpa [List.zip] using hp) with hhead | htail
        · subst hhead
          refine ⟨fun _ => rfl, fun _ => rfl, fun h0 => ?_⟩
          rw [hcf] at h0
          exact Bool.noConfusion h0
        · exact hz p htail


/-- Counterexample to claim C8 as stated: a source generates a ray, the lone
pickable object is invisible (so culled out), and after the update its stored
intersection still holds the stale hit of a previous update (distance 42),
although the object's own best hit this update is none (second conjunct):
the stale hit is retained. -/
theorem claim_C8_counterexample :
    update_raycast ⟨.transform, none, []⟩ (some GlobalTransform.trivial) none none []
      [⟨false, none, GlobalTransform.trivial, 0⟩]
      [⟨some staleIntersection, some emptyMesh, GlobalTransform.trivial, 0⟩] =
      .ok ⟨.transform, some ⟨⟨0, 0, 0⟩, ⟨0, 0, 1⟩⟩, [],
        [⟨some staleIntersection, some emptyMesh, GlobalTransform.trivial, 0⟩]⟩ ∧
    ray_mesh_intersection GlobalTransform.trivial.computeMatrix []
      ⟨⟨0, 0, 0⟩, ⟨0, 0, 1⟩⟩ [] = none := by
  constructor
  · have hgen : generateRay RayCastMethod.transform (some GlobalTransform.trivial) none none [] =
        .ok (some (⟨⟨0, 0, 0⟩, ⟨0, 0, 1⟩⟩, RayCastMethod.transform)) := by
      norm_num [generateRay, GlobalTransform.trivial, GlobalTransform.computeMatrix,
        Mat3.identity, Vec3.smul, Mat4.transformPoint3, Vec4.smul, Vec4.add, Vec4.xyz,
        Vec3.sub, Ray3d.new, Vec3.zero]
    rw [update_raycast]
    rw [show (RayCastSource.mk .transform none []).castMethod = RayCastMethod.transform from rfl]
    rw [hgen]
    simp only [processRay]
    have hcull : cullList ⟨⟨0, 0, 0⟩, ⟨0, 0, 1⟩⟩ [⟨false, none, GlobalTransform.trivial, 0⟩] =
        ([] : List ℕ) := by
      simp [cullList, cullBatch, cullTest]
    rw [hcull]
    have hmp : meshPass ⟨⟨0, 0, 0⟩, ⟨0, 0, 1⟩⟩ ([] : List ℕ)
        [⟨some staleIntersection, some emptyMesh, GlobalTransform.trivial, 0⟩] =
        .ok ([], [⟨some staleIntersection, some emptyMesh, GlobalTransform.trivial, 0⟩]) := by
      simp [meshPass]
    rw [hmp]
    simp [sortIntersections]
  · simp [ray_mesh_intersection, chunks3]

/-- Witness for the amended C8 on a two-object scene: the pass succeeds,
returns one updated entry per input entry, and entries outside the culled
list are returned unchanged. -/
theorem claim_C8_witness :
    ∃ hits outs, meshPass zRay [1]
        [⟨some staleIntersection, some emptyMesh, GlobalTransform.trivial, 1⟩,
         ⟨some staleIntersection, some meshA, GlobalTransform.trivial, 2⟩] = .ok (hits, outs) ∧
      outs.length = 2 ∧
      ∀ p ∈ [(⟨some staleIntersection, some emptyMesh, GlobalTransform.trivial, 1⟩ : MeshEntry),
          ⟨some staleIntersection, some meshA, GlobalTransform.trivial, 2⟩].zip outs,
        ([1] : List ℕ).contains p.1.entity = false → p.2 = p.1 := by
  have e1 : ratSqrt 1 = 1 := by exact_mod_cast ratSqrt_natCast_eval 1 1 (by decide)
  have hmp : meshPass zRay [1]
      [⟨some staleIntersection, some emptyMesh, GlobalTransform.trivial, 1⟩,
       ⟨some staleIntersection, some meshA, GlobalTransform.trivial, 2⟩] =
      .ok ([], [⟨none, some emptyMesh, GlobalTransform.trivial, 1⟩,
        ⟨some staleIntersection, some meshA, GlobalTransform.trivial, 2⟩]) := by
    simp [meshPass, emptyMesh, MeshIndices.toU32, ray_mesh_intersection, chunks3]
  obtain ⟨hl, hz⟩ := claim_C8_amended zRay [1] _ _ _ hmp
  exact ⟨_, _, hmp, hl, fun p hp => (hz p hp).1⟩

/-! ## Claim C7 -/

/-- A candidate (culled-in) entry with a resolvable but malformed mesh makes
the whole mesh pass abort with a fatal error (used by claim C7). -/
theorem meshPass_defective (ray : Ray3d) (culled : List ℕ) :
    ∀ entries : List MeshEntry,
      (∃ e ∈ entries, culled.contains e.entity = true ∧
        ∃ md, e.mesh = some md ∧ (md.topology ≠ PrimTopology.triangleList ∨
          md.positions = none ∨ md.positions = some .otherEncoding ∨ md.indices = none)) →
      ∃ err, meshPass ray culled entries = .error err := by
  intro entries
  induction entries with
  | nil =>
    rintro ⟨x, hx, -⟩
    exact absurd hx (List.not_mem_nil x)
  | cons e rest ih =>
    rintro ⟨x, hx, hcx, md, hmd, hdef⟩
    rcases List.mem_cons.mp hx with rfl | hxrest
    · by_cases ht : md.topology = PrimTopology.triangleList
      · cases hp : md.positions with
        | none =>
          refine ⟨.missingPositions, ?_⟩
          simp only [meshPass, hcx, if_true, hmd]
          rw [if_neg (not_not_intro ht), hp]
        | some va =>
          cases va with
          | otherEncoding =>
            refine ⟨.badVertexEncoding, ?_⟩
            simp only [meshPass, hcx, if_true, hmd]
            rw [if_neg (not_not_intro ht), hp]
          | float3 verts =>
            cases hi : md.indices with
            | none =>
              refine ⟨.missingIndices, ?_⟩
              simp only [meshPass, hcx, if_true, hmd]
              rw [if_neg (not_not_intro ht), hp, hi]
            | some mi =>
              rcases hdef with h | h | h | h
              · exact absurd ht h
              · rw [hp] at h; exact Option.noConfusion h
              · rw [hp] at h; exact VertexAttr.noConfusion (Option.some.inj h)
              · rw [hi] at h; exact Option.noConfusion h
      · refine ⟨.badTopology, ?_⟩
        simp only [meshPass, hcx, if_true, hmd]
        rw [if_pos ht]
    · obtain ⟨err, herr⟩ := ih ⟨x, hxrest, hcx, md, hmd, hdef⟩
      by_cases hc : culled.contains e.entity = true
      · cases hm : e.mesh with
        | none =>
          exact ⟨err, by simp only [meshPass, hc, if_true, hm, herr]⟩
        | some md0 =>
          by_cases ht : md0.topology = PrimTopology.triangleList
          · cases hp : md0.positions with
            | none =>
              refine ⟨.missingPositions, ?_⟩
              simp only [meshPass, hc, if_true, hm]
              rw [if_neg (not_not_intro ht), hp]
            | some va =>
              cases va with
              | otherEncoding =>
                refine ⟨.badVertexEncoding, ?_⟩
                simp only [meshPass, hc, if_true, hm]
                rw [if_neg (not_not_intro ht), hp]
              | float3 verts =>
                cases hi : md0.indices with
                | none =>
                  refine ⟨.missingIndices, ?_⟩
                  simp only [meshPass, hc, if_true, hm]
                  rw [if_neg (not_not_intro ht), hp, hi]
                | some mi =>
                  refine ⟨err, ?_⟩
                  simp only [meshPass, hc, if_true, hm]
                  rw [if_neg (not_not_intro ht), hp, hi, herr]
          · refine ⟨.badTopology, ?_⟩
            simp only [meshPass, hc, if_true, hm]
            rw [if_pos ht]
      · have hcf : culled.contains e.entity = false := by
          cases hcc : culled.contains e.entity
          · rfl
          · exact absurd hcc hc
        exact ⟨err, by simp only [meshPass, hcf, Bool.false_eq_true, if_false, herr]⟩


/-- Claim C7, amended: the update halts with a fatal error whenever a
camera-driven source lacks its Camera component; whenever it lacks its
GlobalTransform component, except in the one case of an on-event-only cursor
source with no fresh cursor event for its window this update, which is
skipped silently before the transform is consulted; and whenever any
candidate object's resolvable mesh has a non-triangle-list topology, missing
or unexpectedly encoded positions, or a missing index list.  (For an
every-frame cursor source, or an on-event-only one with a matching event, a
missing window also halts the update, so a missing transform always yields
some fatal error.) -/
theorem claim_C7_amended
    (src : RayCastSource) (tr : Option GlobalTransform) (cam : Option Camera)
    (cur : Option CursorMoved) (wins : List (ℕ × WindowDims))
    (cull : List CullEntry) (mesh : List MeshEntry) :
    (∀ upd, src.castMethod = .cameraCursor upd → cam = none →
      update_raycast src tr cam cur wins cull mesh = .error .cursorNoCamera) ∧
    (∀ ndc, src.castMethod = .cameraScreenSpace ndc → cam = none →
      update_raycast src tr cam cur wins cull mesh = .error .screenSpaceNoCamera) ∧
    (∀ ndc c0, src.castMethod = .cameraScreenSpace ndc → cam = some c0 → tr = none →
      update_raycast src tr cam cur wins cull mesh = .error .screenSpaceNoTransform) ∧
    (∀ cached c0, src.castMethod = .cameraCursor (.everyFrame cached) → cam = some c0 →
      tr = none → ∃ err, update_raycast src tr cam cur wins cull mesh = .error err) ∧
    (∀ c0 cm0, src.castMethod = .cameraCursor .onMouseEvent → cam = some c0 →
      cur = some cm0 → cm0.id = c0.window → tr = none →
      ∃ err, update_raycast src tr cam cur wins cull mesh = .error err) ∧
    (∀ ray nm, generateRay src.castMethod tr cam cur wins = .ok (some (ray, nm)) →
      (∃ e ∈ mesh, (cullList ray cull).contains e.entity = true ∧
        ∃ md, e.mesh = some md ∧ (md.topology ≠ PrimTopology.triangleList ∨
          md.positions = none ∨ md.positions = some .otherEncoding ∨ md.indices = none)) →
      ∃ err, update_raycast src tr cam cur wins cull mesh = .error err) := by
  refine ⟨?_, ?_, ?_, ?_, ?_, ?_⟩
  · intro upd hm hc
    subst hc
    rw [update_raycast, hm]
    simp [generateRay]
  · intro ndc hm hc
    subst hc
    rw [update_raycast, hm]
    simp [generateRay]
  · intro ndc c0 hm hc htr
    subst hc
    subst htr
    rw [update_raycast, hm]
    simp [generateRay]
  · intro cached c0 hm hc htr
    subst hc
    subst htr
    rw [update_raycast, hm]
    cases hlw : lookupWindow wins c0.window with
    | none =>
      refine ⟨.windowMissing, ?_⟩
      rcases cur with _ | cm
      · simp [generateRay, hlw]
      · by_cases hid : cm.id = c0.window
        · simp [generateRay, hid, hlw]
        · simp [generateRay, hid, hlw]
    | some w =>
      refine ⟨.cursorNoTransform, ?_⟩
      rcases cur with _ | cm
      · simp [generateRay, hlw]
      · by_cases hid : cm.id = c0.window
        · simp [generateRay, hid, hlw]
        · simp [generateRay, hid, hlw]
  · intro c0 cm0 hm hc hcur hid htr
    subst hc
    subst htr
    subst hcur
    rw [update_raycast, hm]
    cases hlw : lookupWindow wins c0.window with
    | none =>
      exact ⟨.windowMissing, by simp [generateRay, hid, hlw]⟩
    | some w =>
      exact ⟨.cursorNoTransform, by simp [generateRay, hid, hlw]⟩
  · intro ray nm hgen hdef
    obtain ⟨err, herr⟩ := meshPass_defective ray (cullList ray cull) mesh hdef
    refine ⟨err, ?_⟩
    rw [update_raycast, hgen]
    simp only [processRay]
    rw [herr]


/-- Counterexample to claim C7 as stated: a cursor-driven (camera-driven)
on-event-only source whose GlobalTransform component is missing, with no
cursor event this update, completes the whole update without any fatal
error: the update returns ok with the source untouched instead of halting. -/
theorem claim_C7_counterexample :
    update_raycast ⟨.cameraCursor .onMouseEvent, none, []⟩ none (some ⟨0, Mat4.identity⟩)
      none [] [] [] =
      .ok ⟨.cameraCursor .onMouseEvent, none, [], []⟩ := by
  rw [update_raycast]
  simp [generateRay]

/-- Witness for the amended C7: a candidate object whose mesh lacks an index
list aborts the update with a fatal error. -/
theorem claim_C7_witness :
    ∃ err, update_raycast ⟨.transform, none, []⟩ (some GlobalTransform.trivial) none none []
      [⟨true, none, GlobalTransform.trivial, 0⟩]
      [⟨none, some noIndexMesh, GlobalTransform.trivial, 0⟩] = .error err := by
  have hgen : generateRay RayCastMethod.transform (some GlobalTransform.trivial) none none [] =
      .ok (some (⟨⟨0, 0, 0⟩, ⟨0, 0, 1⟩⟩, RayCastMethod.transform)) := by
    norm_num [generateRay, GlobalTransform.trivial, GlobalTransform.computeMatrix,
      Mat3.identity, Vec3.smul, Mat4.transformPoint3, Vec4.smul, Vec4.add, Vec4.xyz,
      Vec3.sub, Ray3d.new, Vec3.zero]
  have hcull : cullList ⟨⟨0, 0, 0⟩, ⟨0, 0, 1⟩⟩ [⟨true, none, GlobalTransform.trivial, 0⟩] =
      [0] := by
    simp [cullList, cullBatch, cullTest, boundHit]
  apply (claim_C7_amended ⟨.transform, none, []⟩ (some GlobalTransform.trivial) none none []
    [⟨true, none, GlobalTransform.trivial, 0⟩]
    [⟨none, some noIndexMesh, GlobalTransform.trivial, 0⟩]).2.2.2.2.2
    ⟨⟨0, 0, 0⟩, ⟨0, 0, 1⟩⟩ RayCastMethod.transform hgen
  refine ⟨⟨none, some noIndexMesh, GlobalTransform.trivial, 0⟩, by simp, ?_, noIndexMesh,
    rfl, Or.inr (Or.inr (Or.inr rfl))⟩
  rw [hcull]
  rfl

/-! ## Claim C1 -/

/-- One scan step preserves the scan invariant. -/
theorem scanStep_inv (mtw : Mat4) (verts : List Vec3) (ray : Ray3d)
    (seen : List (ℕ × ℕ × ℕ)) (st : ScanState) (c : ℕ × ℕ × ℕ)
    (h : scanInv mtw verts ray seen st) :
    scanInv mtw verts ray (seen ++ [c]) (scanStep mtw verts ray st c) := by
  obtain ⟨hnone, hsome⟩ := h
  by_cases hskip : st.minPickDistance < minVertexDistance ray (worldTriangle mtw verts c)
  · have hstep : scanStep mtw verts ray st c = st := by
      simp only [scanStep]
      rw [if_pos hskip]
    rw [hstep]
    constructor
    · intro h0
      obtain ⟨hmax, hall⟩ := hnone h0
      refine ⟨hmax, ?_⟩
      intro c2 hc2 p hp
      rcases List.mem_append.mp hc2 with hc2 | hc2
      · exact hall c2 hc2 p hp
      · obtain rfl : c2 = c := List.mem_singleton.mp hc2
        right
        rw [← hmax]
        exact hskip
    · intro i hi
      obtain ⟨hdist, hex, hall⟩ := hsome i hi
      refine ⟨hdist, ?_, ?_⟩
      · obtain ⟨c1, hc1, hrest⟩ := hex
        exact ⟨c1, List.mem_append_left _ hc1, hrest⟩
      · intro c2 hc2 p hp
        rcases List.mem_append.mp hc2 with hc2 | hc2
        · exact hall c2 hc2 p hp
        · obtain rfl : c2 = c := List.mem_singleton.mp hc2
          right
          rw [← hdist]
          exact hskip
  · cases hmiss : rayTriangleIntersection ray (worldTriangle mtw verts c) with
    | none =>
      have hstep : scanStep mtw verts ray st c = st := by
        simp only [scanStep]
        rw [if_neg hskip, hmiss]
      rw [hstep]
      constructor
      · intro h0
        obtain ⟨hmax, hall⟩ := hnone h0
        refine ⟨hmax, ?_⟩
        intro c2 hc2 p hp
        rcases List.mem_append.mp hc2 with hc2 | hc2
        · exact hall c2 hc2 p hp
        · obtain rfl : c2 = c := List.mem_singleton.mp hc2
          rw [hmiss] at hp
          exact Option.noConfusion hp
      · intro i hi
        obtain ⟨hdist, hex, hall⟩ := hsome i hi
        refine ⟨hdist, ?_, ?_⟩
        · obtain ⟨c1, hc1, hrest⟩ := hex
          exact ⟨c1, List.mem_append_left _ hc1, hrest⟩
        · intro c2 hc2 p hp
          rcases List.mem_append.mp hc2 with hc2 | hc2
          · exact hall c2 hc2 p hp
          · obtain rfl : c2 = c := List.mem_singleton.mp hc2
            rw [hmiss] at hp
            exact Option.noConfusion hp
    | some pt =>
      by_cases hlt : |(pt.sub ray.origin).length| < st.minPickDistance
      · have hstep : scanStep mtw verts ray st c =
            ⟨|(pt.sub ray.origin).length|, some ⟨pt, |(pt.sub ray.origin).length|,
              worldTriangle mtw verts c⟩⟩ := by
          simp only [scanStep]
          rw [if_neg hskip, hmiss]
          simp only [if_pos hlt]
        rw [hstep]
        constructor
        · intro h0
          exact Option.noConfusion h0
        · intro i hi
          obtain rfl : (⟨pt, |(pt.sub ray.origin).length|,
              worldTriangle mtw verts c⟩ : Intersection) = i := Option.some.inj hi
          refine ⟨rfl, ⟨c, List.mem_append_right _ (List.mem_singleton_self c),
            hmiss, rfl, rfl⟩, ?_⟩
          intro c2 hc2 p hp
          rcases List.mem_append.mp hc2 with hc2 | hc2
          · cases hpick : st.pickIntersection with
            | none =>
              obtain ⟨hmax, hall⟩ := hnone hpick
              have hsmall : |(pt.sub ray.origin).length| < f32Max := by
                rw [← hmax]
                exact hlt
              rcases hall c2 hc2 p hp with hcase | hcase
              · exact Or.inl (le_trans (le_of_lt hsmall) hcase)
              · exact Or.inr (lt_trans hsmall hcase)
            | some i0 =>
              obtain ⟨hdist0, hex0, hall0⟩ := hsome i0 hpick
              have hsmall : |(pt.sub ray.origin).length| < i0.distance := by
                rw [← hdist0]
                exact hlt
              rcases hall0 c2 hc2 p hp with hcase | hcase
              · exact Or.inl (le_trans (le_of_lt hsmall) hcase)
              · exact Or.inr (lt_trans hsmall hcase)
          · obtain rfl : c2 = c := List.mem_singleton.mp hc2
            rw [hmiss] at hp
            obtain rfl : pt = p := Option.some.inj hp
            exact Or.inl (le_refl _)
      · have hstep : scanStep mtw verts ray st c = st := by
          simp only [scanStep]
          rw [if_neg hskip, hmiss]
          simp only [if_neg hlt]
        rw [hstep]
        push_neg at hlt
        constructor
        · intro h0
          obtain ⟨hmax, hall⟩ := hnone h0
          refine ⟨hmax, ?_⟩
          intro c2 hc2 p hp
          rcases List.mem_append.mp hc2 with hc2 | hc2
          · exact hall c2 hc2 p hp
          · obtain rfl : c2 = c := List.mem_singleton.mp hc2
            rw [hmiss] at hp
            obtain rfl : pt = p := Option.some.inj hp
            left
            rw [← hmax]
            exact hlt
        · intro i hi
          obtain ⟨hdist, hex, hall⟩ := hsome i hi
          refine ⟨hdist, ?_, ?_⟩
          · obtain ⟨c1, hc1, hrest⟩ := hex
            exact ⟨c1, List.mem_append_left _ hc1, hrest⟩
          · intro c2 hc2 p hp
            rcases List.mem_append.mp hc2 with hc2 | hc2
            · exact hall c2 hc2 p hp
            · obtain rfl : c2 = c := List.mem_singleton.mp hc2
              rw [hmiss] at hp
              obtain rfl : pt = p := Option.some.inj hp
              left
              rw [← hdist]
              exact hlt


/-- The whole fold preserves the scan invariant. -/
theorem scanFold_inv (mtw : Mat4) (verts : List Vec3) (ray : Ray3d) :
    ∀ (L seen : List (ℕ × ℕ × ℕ)) (st : ScanState),
      scanInv mtw verts ray seen st →
      scanInv mtw verts ray (seen ++ L) (L.foldl (scanStep mtw verts ray) st) := by
  intro L
  induction L with
  | nil =>
    intro seen st h
    simpa using h
  | cons c L ih =>
    intro seen st h
    have hstep := scanStep_inv mtw verts ray seen st c h
    have := ih (seen ++ [c]) (scanStep mtw verts ray st c) hstep
    simpa [List.append_assoc] using this

/-- Claim C1, amended: when the index count is a multiple of 3, an
intersection returned by `ray_mesh_intersection` is a genuine hit on one of
the object's triangles with its distance the Euclidean length of (point minus
ray origin), and it is minimal among the hits of the triangles subjected to
the exact test: for every triangle hit at distance d with minimum vertex
distance m, the returned distance is at most d or strictly below m (the
latter case is exactly a triangle skipped by the prefilter, which may be the
true closest - see the counterexample); moreover a hit is returned whenever
some triangle is hit at a distance below f32::MAX with its nearest vertex
within f32::MAX. -/
theorem claim_C1_amended (mtw : Mat4) (verts : List Vec3) (ray : Ray3d)
    (idx : List ℕ) (hlen : idx.length % 3 = 0) :
    (∀ i, ray_mesh_intersection mtw verts ray idx = some i →
      (∃ c ∈ chunks3 idx,
        rayTriangleIntersection ray (worldTriangle mtw verts c) = some i.point ∧
        i.distance = |(i.point.sub ray.origin).length| ∧
        i.triangle = worldTriangle mtw verts c) ∧
      (∀ c ∈ chunks3 idx, ∀ p,
        rayTriangleIntersection ray (worldTriangle mtw verts c) = some p →
        i.distance ≤ |(p.sub ray.origin).length| ∨
          i.distance < minVertexDistance ray (worldTriangle mtw verts c))) ∧
    ((∃ c ∈ chunks3 idx, ∃ p,
        rayTriangleIntersection ray (worldTriangle mtw verts c) = some p ∧
        |(p.sub ray.origin).length| < f32Max ∧
        minVertexDistance ray (worldTriangle mtw verts c) ≤ f32Max) →
      ∃ i, ray_mesh_intersection mtw verts ray idx = some i) := by
  have hinit : scanInv mtw verts ray [] ⟨f32Max, none⟩ := by
    constructor
    · intro _
      exact ⟨rfl, by simp⟩
    · intro i hi
      exact Option.noConfusion hi
  have hinv := scanFold_inv mtw verts ray (chunks3 idx) [] ⟨f32Max, none⟩ hinit
  rw [List.nil_append] at hinv
  have hres : ray_mesh_intersection mtw verts ray idx =
      ((chunks3 idx).foldl (scanStep mtw verts ray) ⟨f32Max, none⟩).pickIntersection := by
    rw [ray_mesh_intersection, if_pos hlen]
  obtain ⟨hnone, hsome⟩ := hinv
  constructor
  · intro i hi
    rw [hres] at hi
    obtain ⟨-, hex, hall⟩ := hsome i hi
    exact ⟨hex, hall⟩
  · rintro ⟨c, hc, p, hp, hplt, hvle⟩
    rw [hres]
    cases hpick : ((chunks3 idx).foldl (scanStep mtw verts ray)
        ⟨f32Max, none⟩).pickIntersection with
    | none =>
      obtain ⟨-, hall⟩ := hnone hpick
      rcases hall c hc p hp with hcase | hcase
      · exact absurd hcase (not_le.mpr hplt)
      · exact absurd hcase (not_lt.mpr hvle)
    | some i =>
      exact ⟨i, rfl⟩


/-- Counterexample to claim C1 as stated: in the two-triangle scene, the scan
returns the hit on triangle A at distance 5, although the ray also
intersects triangle B at distance 1: B's nearest vertex is farther than the
best distance found so far, so the prefilter skips B and the returned
intersection is not the minimum-distance one among all intersected
triangles. -/
theorem claim_C1_counterexample :
    ¬ (∀ i, ray_mesh_intersection Mat4.identity sceneVerts zRay sceneIdx = some i →
        ∀ c ∈ chunks3 sceneIdx, ∀ p,
          rayTriangleIntersection zRay (worldTriangle Mat4.identity sceneVerts c) = some p →
          i.distance ≤ |(p.sub zRay.origin).length|) := by
  intro hmin
  have e1 : ratSqrt 1 = 1 := by exact_mod_cast ratSqrt_natCast_eval 1 1 (by decide)
  have e30 : ratSqrt 30 = 5 := by exact_mod_cast ratSqrt_natCast_eval 30 5 (by decide)
  have e29 : ratSqrt 29 = 5 := by exact_mod_cast ratSqrt_natCast_eval 29 5 (by decide)
  have e25 : ratSqrt 25 = 5 := by exact_mod_cast ratSqrt_natCast_eval 25 5 (by decide)
  have e81 : ratSqrt 81 = 9 := by exact_mod_cast ratSqrt_natCast_eval 81 9 (by decide)
  have eB : ratSqrt (21025 / 576) = 145 / 24 := by
    rw [show (21025 / 576 : ℚ) = (145 / 24) * (145 / 24) by norm_num]
    exact ratSqrt_sq (145 / 24) (by norm_num)
  have eAbsB : |(145 / 24 : ℚ)| = 145 / 24 := abs_of_nonneg (by norm_num)
  have hres : ray_mesh_intersection Mat4.identity sceneVerts zRay sceneIdx =
      some ⟨⟨0, 0, 5⟩, 5, triA⟩ := by
    norm_num [ray_mesh_intersection, sceneIdx, chunks3, scanStep, worldTriangle, sceneVerts,
      zRay, minVertexDistance, rayTriangleIntersection, Vec3.sub, Vec3.cross, Vec3.dot,
      Vec3.add, Vec3.smul, Vec3.length, Vec3.lengthSq, Vec3.zero, Mat4.identity,
      Mat4.transformPoint3, Vec4.smul, Vec4.add, Vec4.xyz, f32Max, triA, e1, e30, e29, e25,
      e81, eB, eAbsB]
  have hB : rayTriangleIntersection zRay (worldTriangle Mat4.identity sceneVerts (3, 4, 5)) =
      some ⟨0, 0, 1⟩ := by
    norm_num [rayTriangleIntersection, worldTriangle, sceneVerts, zRay, Vec3.sub, Vec3.cross,
      Vec3.dot, Vec3.add, Vec3.smul, Vec3.zero, Mat4.identity, Mat4.transformPoint3,
      Vec4.smul, Vec4.add, Vec4.xyz]
  have hdist : |((⟨0, 0, 1⟩ : Vec3).sub zRay.origin).length| = 1 := by
    norm_num [Vec3.sub, Vec3.length, Vec3.lengthSq, zRay, e1]
  have hmem : (3, 4, 5) ∈ chunks3 sceneIdx := by
    simp [sceneIdx, chunks3]
  have hle := hmin ⟨⟨0, 0, 5⟩, 5, triA⟩ hres (3, 4, 5) hmem ⟨0, 0, 1⟩ hB
  rw [hdist] at hle
  norm_num at hle

/-- Witness for the amended C1: a one-triangle mesh hit at distance 5 yields
an intersection. -/
theorem claim_C1_witness :
    ∃ i, ray_mesh_intersection Mat4.identity
      [⟨-2, -1, 5⟩, ⟨2, -1, 5⟩, ⟨0, 2, 5⟩] zRay [0, 1, 2] = some i := by
  have e30 : ratSqrt 30 = 5 := by exact_mod_cast ratSqrt_natCast_eval 30 5 (by decide)
  have e29 : ratSqrt 29 = 5 := by exact_mod_cast ratSqrt_natCast_eval 29 5 (by decide)
  have e25 : ratSqrt 25 = 5 := by exact_mod_cast ratSqrt_natCast_eval 25 5 (by decide)
  apply (claim_C1_amended Mat4.identity [⟨-2, -1, 5⟩, ⟨2, -1, 5⟩, ⟨0, 2, 5⟩] zRay
    [0, 1, 2] (by decide)).2
  refine ⟨(0, 1, 2), by simp [chunks3], ⟨0, 0, 5⟩, ?_, ?_, ?_⟩
  · norm_num [rayTriangleIntersection, worldTriangle, zRay, Vec3.sub, Vec3.cross,
      Vec3.dot, Vec3.add, Vec3.smul, Vec3.zero, Mat4.identity, Mat4.transformPoint3,
      Vec4.smul, Vec4.add, Vec4.xyz]
  · norm_num [Vec3.sub, Vec3.length, Vec3.lengthSq, zRay, f32Max, e25]
  · norm_num [minVertexDistance, worldTriangle, zRay, Vec3.sub, Vec3.length, Vec3.lengthSq,
      Vec3.zero, Mat4.identity, Mat4.transformPoint3, Vec4.smul, Vec4.add, Vec4.xyz,
      f32Max, e30, e29]

end BMR
